import Mathlib

/-!
Verification development for `src/admin/extra-aliases.py` (openserverless-task).

The Python script is shallowly embedded: every external interaction
(subprocess execution, file writes, file-existence probes, YAML
parsing/dumping) is mediated by a `World` of oracles, and each embedded
function returns its result together with the list of observable effects it
performs, in order.  Python exceptions are modelled by `Res.raised`,
`sys.exit` by `Res.exited`.
-/

/-! String helpers mirroring the Python string operations used by the script. -/

/-- Model of the Python substring test `pat in s` on character lists. -/
def containsSub (pat : List Char) : List Char → Bool
  | [] => pat.isEmpty
  | c :: t => pat.isPrefixOf (c :: t) || containsSub pat t

/-- Model of Python `s.replace('.', '-')`: the pattern is a single character,
so the replacement is a character-wise map. -/
def replaceDots (s : String) : String :=
  String.mk (s.toList.map (fun c => if c = '.' then '-' else c))

/-- Characters stripped from both ends, model of Python `str.strip()`. -/
def stripChars (l : List Char) : List Char :=
  ((l.dropWhile Char.isWhitespace).reverse.dropWhile Char.isWhitespace).reverse

/-- Model of Python `s.strip()`. -/
def pyStrip (s : String) : String := String.mk (stripChars s.toList)

/-- Helper for `pyWords`: accumulates the current word (reversed). -/
def wordsAux : List Char → List Char → List String
  | [], acc => if acc.isEmpty then [] else [String.mk acc.reverse]
  | c :: cs, acc =>
    if c.isWhitespace then
      if acc.isEmpty then wordsAux cs [] else String.mk acc.reverse :: wordsAux cs []
    else wordsAux cs (c :: acc)

/-- Model of Python `s.split()` with no argument: split on whitespace runs,
discarding empty tokens. -/
def pyWords (s : String) : List String := wordsAux s.toList []

/-- Model of Python `s.lower()` (ASCII case folding suffices here). -/
def pyLower (s : String) : String := String.mk (s.toList.map Char.toLower)

/-- Numeric value of a decimal digit character. -/
def digitVal (c : Char) : Nat := c.toNat - 48

/-- Digits of a Python decimal literal after the first digit: single
underscores are permitted between digits (`int("1_0") = 10`). -/
def parseDigitsAux : List Char → Nat → Option Nat
  | [], acc => some acc
  | '_' :: c :: cs, acc =>
    if c.isDigit then parseDigitsAux cs (acc * 10 + digitVal c) else none
  | ['_'], _ => none
  | c :: cs, acc =>
    if c.isDigit then parseDigitsAux cs (acc * 10 + digitVal c) else none

/-- Nonempty digit part of a Python decimal literal. -/
def parseDigitPart : List Char → Option Nat
  | [] => none
  | c :: cs => if c.isDigit then parseDigitsAux cs (digitVal c) else none

/-- Model of Python `int(s)` for base 10: surrounding whitespace is ignored,
an optional sign precedes a nonempty digit string (underscores allowed
between digits); anything else raises `ValueError`, modelled as `none`. -/
def pyInt (s : String) : Option Int :=
  match stripChars s.toList with
  | [] => none
  | '+' :: ds => (parseDigitPart ds).map (fun n => Int.ofNat n)
  | '-' :: ds => (parseDigitPart ds).map (fun n => -(Int.ofNat n))
  | ds => (parseDigitPart ds).map (fun n => Int.ofNat n)

/-- Decimal digits of a natural number, fuel-driven so that it reduces by
`decide`/`rfl`. The fuel is always sufficient, being at least the number. -/
def natToStringAux : Nat → Nat → List Char → List Char
  | 0, _, acc => acc
  | fuel + 1, n, acc =>
    if n < 10 then Char.ofNat (n + 48) :: acc
    else natToStringAux fuel (n / 10) (Char.ofNat (n % 10 + 48) :: acc)

/-- Decimal rendering of a natural number, model of Python `str(n)` for
nonnegative `n`. -/
def natToString (n : Nat) : String := String.mk (natToStringAux (n + 1) n [])

/-- Model of Python `str(i)` for an `int` value `i` (as interpolated by
f-strings in the script). -/
def intToString (i : Int) : String :=
  if i < 0 then "-" ++ natToString i.natAbs else natToString i.natAbs

/-- Model of Python `s.split(sep, 1)` restricted to the case the separator
occurs: returns the parts before and after the first occurrence of `sep`,
`none` when `sep` does not occur. -/
def splitOnce (sep : List Char) : List Char → Option (List Char × List Char)
  | [] => none
  | c :: cs =>
    if sep.isPrefixOf (c :: cs) then some ([], (c :: cs).drop sep.length)
    else
      match splitOnce sep cs with
      | some (a, b) => some (c :: a, b)
      | none => none

/-! Data models for the structured external values the script consumes. -/

/-- One entry of an interface's `addr_info` list in `ip -j addr show` output:
`localAddr` is the value of the `"local"` key when present, `prefixlen`
likewise. -/
structure AddrInfo where
  localAddr : Option String
  prefixlen : Option Int
deriving DecidableEq

/-- One interface record in `ip -j addr show` output; `addr_info` is `none`
when the key is absent. -/
structure IfaceInfo where
  ifname : String
  addr_info : Option (List AddrInfo)
deriving DecidableEq

/-- Dynamic YAML/JSON-like value, the shape `yaml.safe_load` yields for an
ingress manifest.  Mappings are association lists in insertion order, as
Python dicts are. -/
inductive YamlVal where
  | str (s : String)
  | num (n : Int)
  | boolean (b : Bool)
  | arr (xs : List YamlVal)
  | obj (kvs : List (String × YamlVal))

/-! Effects and outcomes. -/

/-- Result of one `subprocess.run` invocation. -/
structure CmdResult where
  returncode : Int
  stdout : String
  stderr : String
deriving DecidableEq

/-- Observable effects of the script, in program order.  `exec` is an actual
`subprocess.run`; `printCmd` is a dry-run "would execute" display of the
command text; `fileWrite` is an actual filesystem write of the full content;
`printFile` is a dry-run display of path and full content; `fileRemove` is
`os.remove`. -/
inductive Effect where
  | exec (cmd : String)
  | printCmd (cmd : String)
  | fileWrite (path content : String)
  | printFile (path content : String)
  | fileRemove (path : String)
deriving DecidableEq

/-- Outcome of an embedded computation: normal value, `sys.exit(code)`, or a
raised Python exception (caught at top level). -/
inductive Res (α : Type) where
  | ok (a : α)
  | exited (code : Nat)
  | raised (msg : String)
deriving DecidableEq

/-- Sequencing in the effect-trace model: effects accumulate in order and
`exited`/`raised` short-circuit. -/
def mbind {α β : Type} (x : Res α × List Effect) (f : α → Res β × List Effect) :
    Res β × List Effect :=
  match x with
  | (Res.ok a, es) => ((f a).1, es ++ (f a).2)
  | (Res.exited c, es) => (Res.exited c, es)
  | (Res.raised m, es) => (Res.raised m, es)

/-- Effect-free pure value. -/
def mpure {α : Type} (a : α) : Res α × List Effect := (Res.ok a, [])

/-- Oracles for everything outside the script: the dry-run flag, subprocess
execution, `os.path.exists`, whether `open(path, 'w')` raises
`PermissionError`, the name `tempfile` would choose under `/tmp/`, `json`
parsing of `ip -j addr show` output, and the `yaml` library. -/
structure World where
  dryRun : Bool
  exec : String → CmdResult
  pathExists : String → Bool
  permError : String → Bool
  tmpName : String
  parseIpAddr : String → Option (List IfaceInfo)
  parseYaml : String → YamlVal
  dumpYaml : YamlVal → String

/-! The execution shim and the file writer (source lines 139-235). -/

/-- Source lines 142-148: the fixed read-only command patterns. -/
def read_only_patterns : List String :=
  ["kubectl get", "kubectl describe", "hostname -I", "ip -j addr show", "which "]

/-- Source line 151: a command is read-only when any pattern occurs in its
text as a substring. -/
def isReadOnly (cmd : String) : Bool :=
  read_only_patterns.any (fun pat => containsSub pat.toList cmd.toList)

/-- Source lines 139-188, `run_command(cmd, check)`: in dry-run a command
that is not read-only is printed and replaced by a `MockResult` with
returncode 0 and empty streams; otherwise the command is executed; a failed
read-only command in dry-run terminates the process with exit code 1; with
`check` a failed command raises `RuntimeError`. -/
def run_command (w : World) (cmd : String) (check : Bool) :
    Res CmdResult × List Effect :=
  if w.dryRun && !(isReadOnly cmd) then
    (Res.ok ⟨0, "", ""⟩, [Effect.printCmd cmd])
  else
    let r := w.exec cmd
    if w.dryRun && isReadOnly cmd && !(r.returncode == 0) then
      (Res.exited 1, [Effect.exec cmd])
    else if check && !(r.returncode == 0) then
      (Res.raised ("Command failed: " ++ cmd), [Effect.exec cmd])
    else
      (Res.ok r, [Effect.exec cmd])

/-- Source lines 191-235, `write_file(file_path, content, use_sudo)`: in
dry-run a non-`/tmp/` path is only displayed with its full content; a
`/tmp/` path (and every path outside dry-run) is actually written; on
`PermissionError` with `use_sudo` the content goes to a temp file under the
temp directory and is moved into place with `sudo mv`; without `use_sudo`
the `PermissionError` propagates. -/
def write_file (w : World) (file_path content : String) (use_sudo : Bool) :
    Res Unit × List Effect :=
  let is_temp_file := "/tmp/".toList.isPrefixOf file_path.toList
  if w.dryRun && !is_temp_file then
    (Res.ok (), [Effect.printFile file_path content])
  else
    if !(w.permError file_path) then
      (Res.ok (), [Effect.fileWrite file_path content])
    else
      if use_sudo then
        let temp_file := "/tmp/" ++ w.tmpName
        let mv := run_command w ("sudo mv " ++ temp_file ++ " " ++ file_path) true
        (match mv.1 with
         | Res.ok _ => Res.ok ()
         | Res.exited c => Res.exited c
         | Res.raised m => Res.raised m,
         Effect.fileWrite temp_file content :: mv.2)
      else
        (Res.raised "PermissionError", [])

/-! Network discovery and cluster metadata (source lines 238-325). -/

/-- Source lines 238-248, `get_current_ip`: first whitespace-separated token
of `hostname -I` output; in dry-run an empty result degrades to the fixed
placeholder, otherwise it raises. -/
def get_current_ip (w : World) : Res String × List Effect :=
  mbind (run_command w "hostname -I" true) (fun result =>
    match pyWords (pyStrip result.stdout) with
    | [] =>
      if w.dryRun then (Res.ok "192.168.1.100", [])
      else (Res.raised "Could not determine current IP address", [])
    | ip :: _ => (Res.ok ip, []))

/-- Source lines 264-268: scan one interface's `addr_info` for an address
whose `local` equals `ip`; the prefix length defaults to 24. -/
def findAddr (ip : String) : List AddrInfo → Option Int
  | [] => none
  | a :: rest =>
    if a.localAddr == some ip then some (a.prefixlen.getD 24) else findAddr ip rest

/-- Source lines 264-268: first interface owning `ip`, with its name. -/
def findIface (ip : String) : List IfaceInfo → Option (String × Int)
  | [] => none
  | i :: rest =>
    match i.addr_info with
    | some addrs =>
      (match findAddr ip addrs with
       | some p => some (i.ifname, p)
       | none => findIface ip rest)
    | none => findIface ip rest

/-- Source lines 251-274, `get_network_info(ip)`: parse `ip -j addr show`
output and locate the interface owning `ip`; parse failure or no match is
fatal outside dry-run and degrades to `("eth0", 24)` in dry-run. -/
def get_network_info (w : World) (ip : String) : Res (String × Int) × List Effect :=
  mbind (run_command w "ip -j addr show" true) (fun result =>
    match w.parseIpAddr result.stdout with
    | none =>
      if w.dryRun then (Res.ok ("eth0", 24), [])
      else (Res.raised "Could not parse network interface information", [])
    | some interfaces =>
      match findIface ip interfaces with
      | some r => (Res.ok r, [])
      | none =>
        if w.dryRun then (Res.ok ("eth0", 24), [])
        else (Res.raised ("Could not find interface for IP " ++ ip), []))

/-- Single-quote character, built without a quote literal. -/
def squote : String := String.mk [Char.ofNat 39]

/-- Source line 293: the configmap annotation query command. -/
def apihost_cmd : String :=
  "kubectl get cm config -n nuvolaris -o jsonpath=" ++ squote ++
    "\x7b.metadata.annotations.apihost\x7d" ++ squote

/-- Source lines 290-303, `get_current_apihost`: the annotation text, with a
dry-run placeholder when the query fails or the output is blank. -/
def get_current_apihost (w : World) : Res String × List Effect :=
  mbind (run_command w apihost_cmd false) (fun result =>
    if !(result.returncode == 0) || pyStrip result.stdout == "" then
      if w.dryRun then (Res.ok "http://miniops.me", [])
      else (Res.raised "Could not read apihost from cm/config in namespace nuvolaris", [])
    else (Res.ok (pyStrip result.stdout), []))

/-- Source lines 306-325, `get_user_apihost(current_apihost, user)`.  The
Python guard is `'://' in current_apihost` followed by
`split('://', 1)`; since the guard holds exactly when the split succeeds,
the embedding branches directly on `splitOnce`.  Both branches keep only the
domain part before the first `/` (Python `domain.split('/')[0]`). -/
def get_user_apihost (current_apihost user : String) : String :=
  match splitOnce "://".toList current_apihost.toList with
  | some (protocol, rest) =>
    String.mk protocol ++ "://" ++ user ++ "." ++
      String.mk (rest.takeWhile (fun c => !(c == '/')))
  | none =>
    user ++ "." ++
      String.mk (current_apihost.toList.takeWhile (fun c => !(c == '/')))

/-! Preflight checks (source lines 277-372). -/

/-- Source lines 277-280, `check_os`: the Debian marker file must exist. -/
def check_os (w : World) : Res Unit × List Effect :=
  if !(w.pathExists "/etc/debian_version") then
    (Res.raised "This script requires Ubuntu/Debian Linux", [])
  else (Res.ok (), [])

/-- Source lines 283-287, `check_netplan`. -/
def check_netplan (w : World) : Res Unit × List Effect :=
  mbind (run_command w "which netplan" false) (fun result =>
    if !(result.returncode == 0) then (Res.raised "netplan is not installed", [])
    else (Res.ok (), []))

/-- Source lines 328-336, `check_and_install_nginx`: when `which nginx`
fails, a best-effort install is attempted and its failure is fatal. -/
def check_and_install_nginx (w : World) : Res Unit × List Effect :=
  mbind (run_command w "which nginx" false) (fun result =>
    if !(result.returncode == 0) then
      mbind (run_command w "sudo apt-get update && sudo apt-get install -y nginx" false)
        (fun r2 =>
          if !(r2.returncode == 0) then (Res.raised "Failed to install nginx", [])
          else (Res.ok (), []))
    else (Res.ok (), []))

/-- Source lines 347-353: one required ingress must be readable. -/
def check_one_ingress (w : World) (name : String) : Res Unit × List Effect :=
  mbind (run_command w ("kubectl get ingress " ++ name ++ " -n nuvolaris") false)
    (fun result =>
      if !(result.returncode == 0) then
        (Res.raised ("Required ingress " ++ name ++ " not found in namespace nuvolaris"), [])
      else (Res.ok (), []))

/-- Source lines 339-353, `check_ingresses(user)`: the three required
ingresses, each independently. -/
def check_ingresses (w : World) (user : String) : Res Unit × List Effect :=
  mbind (check_one_ingress w (user ++ "-apihost-api-ingress")) (fun _ =>
    mbind (check_one_ingress w (user ++ "-apihost-my-api-ingress")) (fun _ =>
      check_one_ingress w (user ++ "-static-ingress")))

/-- Source lines 356-372, `preflight_checks(user)`: skipped entirely in
dry-run; otherwise OS, netplan, nginx and ingress checks run in order, each
fatal on failure. -/
def preflight_checks (w : World) (user : String) : Res Unit × List Effect :=
  if w.dryRun then (Res.ok (), [])
  else
    mbind (check_os w) (fun _ =>
      mbind (check_netplan w) (fun _ =>
        mbind (check_and_install_nginx w) (fun _ =>
          check_ingresses w user)))

/-! Python dict operations on the YAML mapping model. -/

/-- Model of Python `d[k]` lookup / `k in d` membership on a mapping. -/
def lookupKey : List (String × YamlVal) → String → Option YamlVal
  | [], _ => none
  | (k, v) :: rest, key => if k == key then some v else lookupKey rest key

/-- Model of Python `d.pop(k, None)`: the key is removed (dict keys are
unique), position of the other keys preserved. -/
def popKey : List (String × YamlVal) → String → List (String × YamlVal)
  | [], _ => []
  | (k1, v) :: rest, k =>
    if k1 == k then popKey rest k else (k1, v) :: popKey rest k

/-- Model of Python `d[k] = v` assignment: replaces the value in place when
the key exists, appends otherwise. -/
def setKey : List (String × YamlVal) → String → YamlVal → List (String × YamlVal)
  | [], key, v => [(key, v)]
  | (k, w) :: rest, key, v =>
    if k == key then (k, v) :: rest else (k, w) :: setKey rest key v

/-! The ingress transform (source lines 444-530). -/

/-- The annotation key stripped by the transform. -/
def last_applied_key : String := "kubectl.kubernetes.io/last-applied-configuration"

/-- Source lines 498-503: remove the last-applied-configuration annotation
and drop the whole `annotations` mapping when it becomes empty.  A non-mapping
`annotations` value would make Python raise (`.pop` on a non-dict), modelled
as `none`. -/
def stripAnnotations (md : List (String × YamlVal)) :
    Option (List (String × YamlVal)) :=
  match lookupKey md "annotations" with
  | none => some md
  | some (YamlVal.obj ann) =>
    let ann2 := popKey ann last_applied_key
    if ann2.isEmpty then some (popKey md "annotations")
    else some (setKey md "annotations" (YamlVal.obj ann2))
  | some _ => none

/-- Source lines 511-515: rewrite `spec.rules[0].host` when `rules` is
present and nonempty.  A `rules` value on which Python's `len`/indexing/item
assignment would raise is modelled as `none`. -/
def rewriteRules (host : String) (sp : List (String × YamlVal)) :
    Option (List (String × YamlVal)) :=
  match lookupKey sp "rules" with
  | none => some sp
  | some (YamlVal.arr []) => some sp
  | some (YamlVal.arr (YamlVal.obj r0 :: rs)) =>
    some (setKey sp "rules"
      (YamlVal.arr (YamlVal.obj (setKey r0 "host" (YamlVal.str host)) :: rs)))
  | some _ => none

/-- Source lines 493-515: the pure part of `duplicate_ingress` — strip the
cluster-assigned metadata fields and the status subtree, drop the
last-applied annotation (and an emptied `annotations` map), set the new
name, rewrite the first rule's host.  Shapes on which Python would raise
(`ingress['metadata']` missing or not a mapping, `ingress['spec']` missing
or not a mapping) are modelled as `none`. -/
def duplicateTransform (host new_name : String) (ingress : YamlVal) : Option YamlVal :=
  match ingress with
  | YamlVal.obj top =>
    (match lookupKey top "metadata" with
     | some (YamlVal.obj md) =>
       let md1 := popKey (popKey (popKey (popKey md "uid") "resourceVersion")
         "generation") "creationTimestamp"
       (match stripAnnotations md1 with
        | none => none
        | some md2 =>
          let md3 := setKey md2 "name" (YamlVal.str new_name)
          let top1 := setKey (popKey top "status") "metadata" (YamlVal.obj md3)
          (match lookupKey top1 "spec" with
           | some (YamlVal.obj sp) =>
             (match rewriteRules host sp with
              | none => none
              | some sp2 => some (YamlVal.obj (setKey top1 "spec" (YamlVal.obj sp2))))
           | some _ => none
           | none => none))
     | some _ => none
     | none => none)
  | _ => none

/-- Source lines 444-448: the duplicated ingress name computed on the
creation path, `alias-<host>-<port>-<user>-<suffix>` with dots replaced. -/
def create_ingress_name (user host : String) (port : Int) (suffix : String) : String :=
  replaceDots ("alias-" ++ host ++ "-" ++ intToString port ++ "-" ++
    (user ++ "-" ++ suffix))

/-- Source lines 457-487: the synthetic ingress substituted in dry-run when
the source ingress cannot be obtained. -/
def mock_ingress (original_name : String) : YamlVal :=
  YamlVal.obj
    [("apiVersion", YamlVal.str "networking.k8s.io/v1"),
     ("kind", YamlVal.str "Ingress"),
     ("metadata", YamlVal.obj
       [("name", YamlVal.str original_name),
        ("namespace", YamlVal.str "nuvolaris"),
        ("uid", YamlVal.str "mock-uid"),
        ("resourceVersion", YamlVal.str "mock-version"),
        ("generation", YamlVal.num 1),
        ("creationTimestamp", YamlVal.str "2025-01-01T00:00:00Z")]),
     ("spec", YamlVal.obj
       [("ingressClassName", YamlVal.str "nginx"),
        ("rules", YamlVal.arr
          [YamlVal.obj
            [("host", YamlVal.str "original-host.example.com"),
             ("http", YamlVal.obj
               [("paths", YamlVal.arr
                 [YamlVal.obj
                   [("path", YamlVal.str "/"),
                    ("pathType", YamlVal.str "Prefix"),
                    ("backend", YamlVal.obj
                      [("service", YamlVal.obj
                        [("name", YamlVal.str "example-service"),
                         ("port", YamlVal.obj [("number", YamlVal.num 80)])])])]])])]])]),
     ("status", YamlVal.obj [])]

/-- Source lines 444-530, `duplicate_ingress(user, host, port, suffix)`:
fetch the source ingress (in dry-run, substituting the mock when the fetch
returns success with blank output; a failing fetch is intercepted inside
`run_command` and exits), transform it, write the manifest to a `/tmp` file
and apply it; the temp file is removed only outside dry-run. -/
def duplicate_ingress (w : World) (user host : String) (port : Int)
    (suffix : String) : Res Unit × List Effect :=
  let original_name := user ++ "-" ++ suffix
  let new_name := create_ingress_name user host port suffix
  mbind (run_command w ("kubectl get ingress " ++ original_name ++
      " -n nuvolaris -o yaml") false) (fun result =>
    let fetched : Res YamlVal :=
      if !(result.returncode == 0) || pyStrip result.stdout == "" then
        if w.dryRun then Res.ok (mock_ingress original_name)
        else Res.raised ("Could not fetch ingress " ++ original_name)
      else Res.ok (w.parseYaml result.stdout)
    match fetched with
    | Res.ok ingress =>
      (match duplicateTransform host new_name ingress with
       | none => (Res.raised "KeyError", [])
       | some newIngress =>
         let temp_file := "/tmp/" ++ new_name ++ ".yaml"
         mbind (write_file w temp_file (w.dumpYaml newIngress) false) (fun _ =>
           mbind (run_command w ("kubectl apply -f " ++ temp_file ++
               " -n nuvolaris") true) (fun _ =>
             if w.dryRun then (Res.ok (), [])
             else (Res.ok (), [Effect.fileRemove temp_file]))))
    | Res.raised m => (Res.raised m, [])
    | Res.exited c => (Res.exited c, []))

/-- Source lines 533-542, `duplicate_ingresses(user, host, port)`. -/
def duplicate_ingresses (w : World) (user host : String) (port : Int) :
    Res Unit × List Effect :=
  mbind (duplicate_ingress w user host port "apihost-api-ingress") (fun _ =>
    mbind (duplicate_ingress w user host port "apihost-my-api-ingress") (fun _ =>
      duplicate_ingress w user host port "static-ingress"))

/-! Reconciliation steps: creation path (source lines 375-441). -/

/-- Source line 381: the netplan file path used on the creation path. -/
def create_netplan_file (ip : String) : String :=
  "/etc/netplan/50-" ++ ip ++ ".yaml"

/-- Source lines 382-387: content of the netplan alias file. -/
def netplan_content (current_interface ip : String) (current_netmask : Int) : String :=
  "network:\n  ethernets:\n    " ++ current_interface ++
    ":\n      addresses:\n        - " ++ ip ++ "/" ++
    intToString current_netmask ++ "\n"

/-- Source lines 375-397, `create_network_alias`: a no-op when `ip` equals
the current IP; otherwise write the netplan file (with sudo) and run
`sudo netplan apply`. -/
def create_network_alias (w : World) (ip current_ip current_interface : String)
    (current_netmask : Int) : Res Unit × List Effect :=
  if ip == current_ip then (Res.ok (), [])
  else
    mbind (write_file w (create_netplan_file ip)
        (netplan_content current_interface ip current_netmask) true) (fun _ =>
      mbind (run_command w "sudo netplan apply" true) (fun _ => (Res.ok (), [])))

/-- Source lines 406-407: nginx sites-available path on the creation path. -/
def create_sites_available (host : String) (port : Int) : String :=
  "/etc/nginx/sites-available/" ++ (host ++ "-" ++ intToString port)

/-- Source line 408: nginx sites-enabled path on the creation path. -/
def create_sites_enabled (host : String) (port : Int) : String :=
  "/etc/nginx/sites-enabled/" ++ (host ++ "-" ++ intToString port)

/-- Source lines 410-423: the generated nginx site configuration. -/
def nginx_config (host : String) (port : Int) (user_apihost : String) : String :=
  "server \x7b\n    listen " ++ intToString port ++ ";\n    server_name " ++
    host ++ ";\n\n    location / \x7b\n        proxy_pass http://127.0.0.1:80;\n" ++
    "        proxy_set_header Host " ++ user_apihost ++
    ";\n        proxy_set_header X-Real-IP $remote_addr;\n" ++
    "        proxy_set_header X-Forwarded-For $proxy_add_x_forwarded_for;\n" ++
    "        proxy_set_header X-Forwarded-Proto $scheme;\n" ++
    "        proxy_set_header X-Forwarded-Port " ++ intToString port ++
    ";\n    \x7d\n\x7d\n"

/-- Source lines 400-441, `create_nginx_proxy`: a no-op when `port` is 80;
otherwise write the site file, create the enabled symlink (always attempted
in dry-run, otherwise only when absent), and enable/start/reload nginx. -/
def create_nginx_proxy (w : World) (host : String) (port : Int)
    (user_apihost : String) : Res Unit × List Effect :=
  if port == 80 then (Res.ok (), [])
  else
    let config_path := create_sites_available host port
    let enabled_path := create_sites_enabled host port
    mbind (write_file w config_path (nginx_config host port user_apihost) true)
      (fun _ =>
        mbind
          (if w.dryRun || !(w.pathExists enabled_path) then
            run_command w ("sudo ln -s " ++ config_path ++ " " ++ enabled_path) true
          else mpure ⟨0, "", ""⟩) (fun _ =>
          mbind (run_command w "sudo systemctl enable nginx" false) (fun _ =>
            mbind (run_command w "sudo systemctl start nginx" false) (fun _ =>
              mbind (run_command w "sudo systemctl reload nginx" true) (fun _ =>
                (Res.ok (), []))))))

/-! Reconciliation steps: deletion path (source lines 545-603). -/

/-- Source line 547: the netplan file path recomputed on the deletion path. -/
def delete_netplan_file (ip : String) : String :=
  "/etc/netplan/50-" ++ ip ++ ".yaml"

/-- Source lines 545-554, `delete_network_alias(ip)`. -/
def delete_network_alias (w : World) (ip : String) : Res Unit × List Effect :=
  let netplan_file := delete_netplan_file ip
  if w.dryRun || w.pathExists netplan_file then
    mbind (run_command w ("sudo rm " ++ netplan_file) true) (fun _ =>
      mbind (run_command w "sudo netplan apply" true) (fun _ => (Res.ok (), [])))
  else (Res.ok (), [])

/-- Source lines 559-560: sites-available path recomputed on deletion. -/
def delete_sites_available (host : String) (port : Int) : String :=
  "/etc/nginx/sites-available/" ++ (host ++ "-" ++ intToString port)

/-- Source line 561: sites-enabled path recomputed on deletion. -/
def delete_sites_enabled (host : String) (port : Int) : String :=
  "/etc/nginx/sites-enabled/" ++ (host ++ "-" ++ intToString port)

/-- Source lines 557-574, `delete_nginx_proxy(host, port)`. -/
def delete_nginx_proxy (w : World) (host : String) (port : Int) :
    Res Unit × List Effect :=
  let config_path := delete_sites_available host port
  let enabled_path := delete_sites_enabled host port
  mbind
    (if w.dryRun || w.pathExists enabled_path then
      run_command w ("sudo rm " ++ enabled_path) true
    else mpure ⟨0, "", ""⟩) (fun _ =>
    if w.dryRun || w.pathExists config_path then
      mbind (run_command w ("sudo rm " ++ config_path) true) (fun _ =>
        mbind (run_command w "sudo systemctl reload nginx" false) (fun _ =>
          (Res.ok (), [])))
    else (Res.ok (), []))

/-- Source lines 577-581: the ingress name recomputed on the deletion path,
matching the creation convention. -/
def delete_ingress_name (user host : String) (port : Int) (suffix : String) : String :=
  replaceDots ("alias-" ++ host ++ "-" ++ intToString port ++ "-" ++
    (user ++ "-" ++ suffix))

/-- Source lines 577-591, `delete_ingress(user, host, port, suffix)`:
deletion by recomputed name; a missing ingress is reported, not fatal. -/
def delete_ingress (w : World) (user host : String) (port : Int)
    (suffix : String) : Res Unit × List Effect :=
  let ingress_name := delete_ingress_name user host port suffix
  mbind (run_command w ("kubectl delete ingress " ++ ingress_name ++
      " -n nuvolaris") false) (fun _ => (Res.ok (), []))

/-- Source lines 594-603, `delete_ingresses(user, host, port)`. -/
def delete_ingresses (w : World) (user host : String) (port : Int) :
    Res Unit × List Effect :=
  mbind (delete_ingress w user host port "apihost-api-ingress") (fun _ =>
    mbind (delete_ingress w user host port "apihost-my-api-ingress") (fun _ =>
      delete_ingress w user host port "static-ingress"))

/-! Argument resolution and the main pipeline (source lines 606-668). -/

/-- Model of the Python pattern `sys.argv[i] if len(sys.argv) > i and
sys.argv[i] else dflt`: the positional argument at `i`, defaulted when
absent or empty. -/
def argOr (argv : List String) (i : Nat) (dflt : String) : String :=
  match argv.get? i with
  | some s => if s == "" then dflt else s
  | none => dflt

/-- Source line 623: `ip` defaults to the discovered current IP. -/
def resolved_ip (argv : List String) (current_ip : String) : String :=
  argOr argv 4 current_ip

/-- Source line 624: `host` defaults to the resolved `ip`. -/
def resolved_host (argv : List String) (current_ip : String) : String :=
  argOr argv 2 (resolved_ip argv current_ip)

/-- Source line 625: `port` defaults to 80 and is otherwise parsed with
`int()`; `none` models the `ValueError` raised on unparseable input. -/
def resolved_port (argv : List String) : Option Int :=
  match argv.get? 3 with
  | none => some 80
  | some s => if s == "" then some 80 else pyInt s

/-- Source line 626: `delete` defaults to false and is otherwise true
exactly for the lowercased truthy tokens. -/
def resolved_delete (argv : List String) : Bool :=
  match argv.get? 5 with
  | none => false
  | some s =>
    if s == "" then false
    else pyLower s == "true" || pyLower s == "1" || pyLower s == "yes"

/-- Resolved configuration of one invocation (source lines 612, 622-626). -/
structure Config where
  user : String
  host : String
  port : Int
  ip : String
  delete : Bool
deriving DecidableEq

/-- Source lines 612 and 622-626: full argument resolution; an unparseable
`PORT` raises (propagating to the top-level handler). -/
def resolve_config (argv : List String) (current_ip : String) : Res Config :=
  match resolved_port argv with
  | none => Res.raised "invalid literal for int() with base 10"
  | some port =>
    Res.ok
      { user := (argv.get? 1).getD ""
        host := resolved_host argv current_ip
        port := port
        ip := resolved_ip argv current_ip
        delete := resolved_delete argv }

/-- Source lines 642-660: the part of `main` after argument resolution —
preflight (create only) followed by the create or delete reconciliation
sequence. -/
def afterResolve (w : World) (cfg : Config) (current_interface : String)
    (current_netmask : Int) (current_ip user_apihost : String) :
    Res Unit × List Effect :=
  if cfg.delete then
    mbind (delete_nginx_proxy w cfg.host cfg.port) (fun _ =>
      mbind (delete_network_alias w cfg.ip) (fun _ =>
        delete_ingresses w cfg.user cfg.host cfg.port))
  else
    mbind (preflight_checks w cfg.user) (fun _ =>
      mbind (create_network_alias w cfg.ip current_ip current_interface
          current_netmask) (fun _ =>
        mbind (create_nginx_proxy w cfg.host cfg.port user_apihost) (fun _ =>
          duplicate_ingresses w cfg.user cfg.host cfg.port)))

/-- Source lines 606-660, `main()`: usage check, discovery, apihost
derivation, argument resolution, then the create or delete path. -/
def mainRun (w : World) (argv : List String) : Res Unit × List Effect :=
  if argv.length < 2 then (Res.exited 1, [])
  else
    mbind (get_current_ip w) (fun current_ip =>
      mbind (get_network_info w current_ip) (fun ni =>
        mbind (get_current_apihost w) (fun current_apihost =>
          let user := (argv.get? 1).getD ""
          let user_apihost := get_user_apihost current_apihost user
          match resolve_config argv current_ip with
          | Res.ok cfg => afterResolve w cfg ni.1 ni.2 current_ip user_apihost
          | Res.exited c => (Res.exited c, [])
          | Res.raised m => (Res.raised m, []))))

/-- Source lines 663-668, the `__main__` wrapper: any exception escaping
`main` is printed and turned into exit code 1. -/
def program (w : World) (argv : List String) : Res Unit × List Effect :=
  match mainRun w argv with
  | (Res.raised _, es) => (Res.exited 1, es)
  | x => x

/-! Basic lemmas about the mapping operations. -/

theorem lookup_pop_self (l : List (String × YamlVal)) (k : String) :
    lookupKey (popKey l k) k = none := by
  induction l with
  | nil => rfl
  | cons p rest ih =>
    obtain ⟨k1, v1⟩ := p
    by_cases h : k1 = k
    · simp [popKey, h, ih]
    · simp [popKey, lookupKey, h, ih]

theorem lookup_pop_ne (l : List (String × YamlVal)) (k k2 : String)
    (h : k2 ≠ k) : lookupKey (popKey l k) k2 = lookupKey l k2 := by
  induction l with
  | nil => rfl
  | cons p rest ih =>
    obtain ⟨k1, v1⟩ := p
    by_cases h1 : k1 = k
    · subst h1
      simp [popKey, lookupKey, Ne.symm h, ih]
    · by_cases h2 : k1 = k2
      · simp [popKey, lookupKey, h1, h2, h]
      · simp [popKey, lookupKey, h1, h2, ih]

theorem lookup_set_self (l : List (String × YamlVal)) (k : String) (v : YamlVal) :
    lookupKey (setKey l k v) k = some v := by
  induction l with
  | nil => simp [setKey, lookupKey]
  | cons p rest ih =>
    obtain ⟨k1, v1⟩ := p
    by_cases h : k1 = k
    · simp [setKey, h, lookupKey]
    · simp [setKey, h, lookupKey, ih]

theorem lookup_set_ne (l : List (String × YamlVal)) (k k2 : String) (v : YamlVal)
    (h : k2 ≠ k) : lookupKey (setKey l k v) k2 = lookupKey l k2 := by
  induction l with
  | nil => simp [setKey, lookupKey, Ne.symm h]
  | cons p rest ih =>
    obtain ⟨k1, v1⟩ := p
    by_cases h1 : k1 = k
    · subst h1
      simp [setKey, lookupKey, Ne.symm h]
    · by_cases h2 : k1 = k2
      · simp [setKey, lookupKey, h1, h2, h]
      · simp [setKey, lookupKey, h1, h2, ih]

/-! Lemmas about substring classification. -/

theorem containsSub_of_isPrefixOf (pat l : List Char)
    (h : pat.isPrefixOf l = true) : containsSub pat l = true := by
  cases l with
  | nil =>
    cases pat with
    | nil => rfl
    | cons c cs => simp [List.isPrefixOf] at h
  | cons c cs => simp [containsSub, h]

theorem containsSub_append_of_prefix (pat pre rest : List Char)
    (h : pat.isPrefixOf pre = true) : containsSub pat (pre ++ rest) = true := by
  apply containsSub_of_isPrefixOf
  rw [ List.isPrefixOf_iff_prefix] at h ⊢
  exact h.trans (List.prefix_append pre rest)

theorem isReadOnly_of_pattern (cmd pat : String) (hmem : pat ∈ read_only_patterns)
    (h : containsSub pat.toList cmd.toList = true) : isReadOnly cmd = true := by
  simp only [isReadOnly, List.any_eq_true]
  exact ⟨pat, hmem, h⟩

theorem string_prefix_append (p s : String) :
    p.toList.isPrefixOf (p ++ s).toList = true := by
  show p.data.isPrefixOf (p ++ s).data = true
  rw [String.data_append, List.isPrefixOf_iff_prefix]
  exact List.prefix_append p.data s.data

theorem isReadOnly_kubectl_get (s : String) :
    isReadOnly ("kubectl get " ++ s) = true := by
  apply isReadOnly_of_pattern _ "kubectl get" (by simp [read_only_patterns])
  show containsSub "kubectl get".data ("kubectl get " ++ s).data = true
  rw [String.data_append]
  exact containsSub_append_of_prefix _ _ _ (by decide)

theorem isReadOnly_kubectl_get_ingress (name tail : String) :
    isReadOnly ("kubectl get ingress " ++ name ++ tail) = true := by
  have e1 : "kubectl get ingress " = "kubectl get " ++ "ingress " := by decide
  rw [String.append_assoc, e1, String.append_assoc]
  exact isReadOnly_kubectl_get _

theorem isReadOnly_apihost_cmd : isReadOnly apihost_cmd = true := by decide

/-! The dry-run effect invariant: in dry-run mode the only commands actually
executed are read-only ones, and the only files actually written (or
removed) live under `/tmp/`. -/

/-- Harmlessness of a single effect in dry-run mode. -/
def dryOk (e : Effect) : Bool :=
  match e with
  | Effect.exec c => isReadOnly c
  | Effect.printCmd _ => true
  | Effect.fileWrite p _ => "/tmp/".toList.isPrefixOf p.toList
  | Effect.printFile _ _ => true
  | Effect.fileRemove p => "/tmp/".toList.isPrefixOf p.toList

theorem prefix_append_prop (p s : String) : p.toList <+: (p ++ s).toList := by
  show p.data <+: (p ++ s).data
  rw [String.data_append]
  exact List.prefix_append p.data s.data

theorem all_dryOk_mbind {α β : Type} (x : Res α × List Effect)
    (f : α → Res β × List Effect) (hx : x.2.all dryOk = true)
    (hf : ∀ a, ((f a).2).all dryOk = true) :
    ((mbind x f).2).all dryOk = true := by
  obtain ⟨r, es⟩ := x
  cases r with
  | ok a =>
    show (es ++ (f a).2).all dryOk = true
    rw [List.all_append]
    rw [show es.all dryOk = true from hx, hf a]
    rfl
  | exited c => exact hx
  | raised m => exact hx

theorem all_dryOk_run_command (w : World) (cmd : String) (check : Bool)
    (hdry : w.dryRun = true) :
    ((run_command w cmd check).2).all dryOk = true := by
  cases hro : isReadOnly cmd with
  | false => simp [run_command, hdry, hro, dryOk]
  | true =>
    cases h0 : (w.exec cmd).returncode == 0 <;> cases hc : check <;>
      simp [run_command, hdry, hro, h0, hc, dryOk]

theorem all_dryOk_write_file (w : World) (p c : String) (use_sudo : Bool)
    (hdry : w.dryRun = true) :
    ((write_file w p c use_sudo).2).all dryOk = true := by
  simp only [write_file]
  split
  · simp [dryOk]
  · rename_i hcond
    have htmp : "/tmp/".toList.isPrefixOf p.toList = true := by
      cases h : "/tmp/".toList.isPrefixOf p.toList with
      | true => rfl
      | false => exact absurd (by rw [hdry, h]; rfl) hcond
    split
    · show ([Effect.fileWrite p c].all dryOk) = true
      simp only [List.all_cons, List.all_nil, Bool.and_true]
      exact htmp
    · split
      · show (Effect.fileWrite ("/tmp/" ++ w.tmpName) c ::
            (run_command w ("sudo mv " ++ ("/tmp/" ++ w.tmpName) ++ " " ++ p)
              true).2).all dryOk = true
        rw [List.all_cons]
        rw [show dryOk (Effect.fileWrite ("/tmp/" ++ w.tmpName) c) = true from by
          simp [dryOk, string_prefix_append]]
        rw [all_dryOk_run_command w _ true hdry]
        rfl
      · simp

theorem all_dryOk_get_current_ip (w : World) (hdry : w.dryRun = true) :
    ((get_current_ip w).2).all dryOk = true := by
  apply all_dryOk_mbind _ _ (all_dryOk_run_command w _ _ hdry)
  intro r
  repeat' split
  all_goals rfl

theorem all_dryOk_get_network_info (w : World) (ip : String)
    (hdry : w.dryRun = true) : ((get_network_info w ip).2).all dryOk = true := by
  apply all_dryOk_mbind _ _ (all_dryOk_run_command w _ _ hdry)
  intro r
  repeat' split
  all_goals rfl

theorem all_dryOk_get_current_apihost (w : World) (hdry : w.dryRun = true) :
    ((get_current_apihost w).2).all dryOk = true := by
  apply all_dryOk_mbind _ _ (all_dryOk_run_command w _ _ hdry)
  intro r
  repeat' split
  all_goals rfl

theorem all_dryOk_preflight_checks (w : World) (user : String)
    (hdry : w.dryRun = true) : ((preflight_checks w user).2).all dryOk = true := by
  simp [preflight_checks, hdry]

theorem all_dryOk_create_network_alias (w : World) (ip cip ci : String) (cm : Int)
    (hdry : w.dryRun = true) :
    ((create_network_alias w ip cip ci cm).2).all dryOk = true := by
  unfold create_network_alias
  split
  · rfl
  · apply all_dryOk_mbind _ _ (all_dryOk_write_file w _ _ _ hdry)
    intro _
    apply all_dryOk_mbind _ _ (all_dryOk_run_command w _ _ hdry)
    intro _
    rfl

theorem all_dryOk_create_nginx_proxy (w : World) (host : String) (port : Int)
    (ua : String) (hdry : w.dryRun = true) :
    ((create_nginx_proxy w host port ua).2).all dryOk = true := by
  unfold create_nginx_proxy
  split
  · rfl
  · apply all_dryOk_mbind _ _ (all_dryOk_write_file w _ _ _ hdry)
    intro _
    apply all_dryOk_mbind
    · split
      · exact all_dryOk_run_command w _ _ hdry
      · rfl
    · intro _
      apply all_dryOk_mbind _ _ (all_dryOk_run_command w _ _ hdry)
      intro _
      apply all_dryOk_mbind _ _ (all_dryOk_run_command w _ _ hdry)
      intro _
      apply all_dryOk_mbind _ _ (all_dryOk_run_command w _ _ hdry)
      intro _
      rfl

theorem all_dryOk_duplicate_ingress (w : World) (user host : String) (port : Int)
    (suffix : String) (hdry : w.dryRun = true) :
    ((duplicate_ingress w user host port suffix).2).all dryOk = true := by
  simp only [duplicate_ingress]
  apply all_dryOk_mbind _ _ (all_dryOk_run_command w _ _ hdry)
  intro r
  split
  · split
    · rfl
    · apply all_dryOk_mbind _ _ (all_dryOk_write_file w _ _ _ hdry)
      intro _
      apply all_dryOk_mbind _ _ (all_dryOk_run_command w _ _ hdry)
      intro _
      simp [hdry]
  · rfl
  · rfl

theorem all_dryOk_duplicate_ingresses (w : World) (user host : String)
    (port : Int) (hdry : w.dryRun = true) :
    ((duplicate_ingresses w user host port).2).all dryOk = true := by
  apply all_dryOk_mbind _ _ (all_dryOk_duplicate_ingress w _ _ _ _ hdry)
  intro _
  apply all_dryOk_mbind _ _ (all_dryOk_duplicate_ingress w _ _ _ _ hdry)
  intro _
  exact all_dryOk_duplicate_ingress w _ _ _ _ hdry

theorem all_dryOk_delete_network_alias (w : World) (ip : String)
    (hdry : w.dryRun = true) :
    ((delete_network_alias w ip).2).all dryOk = true := by
  simp only [delete_network_alias]
  split
  · apply all_dryOk_mbind _ _ (all_dryOk_run_command w _ _ hdry)
    intro _
    apply all_dryOk_mbind _ _ (all_dryOk_run_command w _ _ hdry)
    intro _
    rfl
  · rfl

theorem all_dryOk_delete_nginx_proxy (w : World) (host : String) (port : Int)
    (hdry : w.dryRun = true) :
    ((delete_nginx_proxy w host port).2).all dryOk = true := by
  unfold delete_nginx_proxy
  apply all_dryOk_mbind
  · split
    · exact all_dryOk_run_command w _ _ hdry
    · rfl
  · intro _
    split
    · apply all_dryOk_mbind _ _ (all_dryOk_run_command w _ _ hdry)
      intro _
      apply all_dryOk_mbind _ _ (all_dryOk_run_command w _ _ hdry)
      intro _
      rfl
    · rfl

theorem all_dryOk_delete_ingress (w : World) (user host : String) (port : Int)
    (suffix : String) (hdry : w.dryRun = true) :
    ((delete_ingress w user host port suffix).2).all dryOk = true := by
  apply all_dryOk_mbind _ _ (all_dryOk_run_command w _ _ hdry)
  intro _
  rfl

theorem all_dryOk_delete_ingresses (w : World) (user host : String) (port : Int)
    (hdry : w.dryRun = true) :
    ((delete_ingresses w user host port).2).all dryOk = true := by
  apply all_dryOk_mbind _ _ (all_dryOk_delete_ingress w _ _ _ _ hdry)
  intro _
  apply all_dryOk_mbind _ _ (all_dryOk_delete_ingress w _ _ _ _ hdry)
  intro _
  exact all_dryOk_delete_ingress w _ _ _ _ hdry

theorem all_dryOk_afterResolve (w : World) (cfg : Config) (ci : String) (cm : Int)
    (cip ua : String) (hdry : w.dryRun = true) :
    ((afterResolve w cfg ci cm cip ua).2).all dryOk = true := by
  unfold afterResolve
  split
  · apply all_dryOk_mbind _ _ (all_dryOk_delete_nginx_proxy w _ _ hdry)
    intro _
    apply all_dryOk_mbind _ _ (all_dryOk_delete_network_alias w _ hdry)
    intro _
    exact all_dryOk_delete_ingresses w _ _ _ hdry
  · apply all_dryOk_mbind _ _ (all_dryOk_preflight_checks w _ hdry)
    intro _
    apply all_dryOk_mbind _ _ (all_dryOk_create_network_alias w _ _ _ _ hdry)
    intro _
    apply all_dryOk_mbind _ _ (all_dryOk_create_nginx_proxy w _ _ _ hdry)
    intro _
    exact all_dryOk_duplicate_ingresses w _ _ _ hdry

theorem all_dryOk_mainRun (w : World) (argv : List String)
    (hdry : w.dryRun = true) : ((mainRun w argv).2).all dryOk = true := by
  unfold mainRun
  split
  · rfl
  · apply all_dryOk_mbind _ _ (all_dryOk_get_current_ip w hdry)
    intro cip
    apply all_dryOk_mbind _ _ (all_dryOk_get_network_info w _ hdry)
    intro ni
    apply all_dryOk_mbind _ _ (all_dryOk_get_current_apihost w hdry)
    intro ca
    split
    · exact all_dryOk_afterResolve w _ _ _ _ _ hdry
    · rfl
    · rfl

theorem all_dryOk_program (w : World) (argv : List String)
    (hdry : w.dryRun = true) : ((program w argv).2).all dryOk = true := by
  have h := all_dryOk_mainRun w argv hdry
  unfold program
  rcases hr : mainRun w argv with ⟨r, es⟩
  rw [hr] at h
  cases r <;> exact h

/-- C2: in dry-run mode, every command outside the fixed read-only
classification set is printed and replaced by a synthetic success (exit code
0, empty streams) instead of being executed; every file write outside the
scratch directory `/tmp` is replaced by printing the path and full content;
and over a whole program run every actually-executed command is classified
read-only and every actual file write (or removal) stays under `/tmp/`, so
no filesystem or cluster mutation occurs. -/
theorem C2_dry_run_invariant :
    ∀ (w : World) (cmd : String) (check : Bool) (path content : String)
      (use_sudo : Bool) (argv : List String),
      w.dryRun = true →
      (isReadOnly cmd = false →
        run_command w cmd check = (Res.ok ⟨0, "", ""⟩, [Effect.printCmd cmd])) ∧
      ("/tmp/".toList.isPrefixOf path.toList = false →
        write_file w path content use_sudo =
          (Res.ok (), [Effect.printFile path content])) ∧
      ((program w argv).2).all dryOk = true := by
  intro w cmd check path content use_sudo argv hdry
  refine ⟨?_, ?_, all_dryOk_program w argv hdry⟩
  · intro hro
    unfold run_command
    rw [hdry, hro]
    rfl
  · intro htmp
    unfold write_file
    rw [hdry, htmp]
    rfl

/-- C2 witness: a concrete dry-run world in which a mutating command is only
printed and a system file write is only displayed. -/
theorem C2_dry_run_invariant_witness :
    run_command
        ⟨true, fun _ => ⟨1, "", "e"⟩, fun _ => true, fun _ => false, "t",
          fun _ => none, fun _ => YamlVal.obj [], fun _ => ""⟩
        "sudo netplan apply" true =
      (Res.ok ⟨0, "", ""⟩, [Effect.printCmd "sudo netplan apply"]) ∧
    write_file
        ⟨true, fun _ => ⟨1, "", "e"⟩, fun _ => true, fun _ => false, "t",
          fun _ => none, fun _ => YamlVal.obj [], fun _ => ""⟩
        "/etc/netplan/50-10.0.0.9.yaml" "network:" true =
      (Res.ok (), [Effect.printFile "/etc/netplan/50-10.0.0.9.yaml" "network:"]) := by
  have h := C2_dry_run_invariant
    ⟨true, fun _ => ⟨1, "", "e"⟩, fun _ => true, fun _ => false, "t",
      fun _ => none, fun _ => YamlVal.obj [], fun _ => ""⟩
    "sudo netplan apply" true "/etc/netplan/50-10.0.0.9.yaml" "network:" true [] rfl
  exact ⟨h.1 (by decide), h.2.1 (by decide)⟩

/-- C4: the deletion path recomputes exactly the artifact identities the
creation path uses — the netplan file path keyed by `ip`, the nginx
sites-available and sites-enabled paths keyed by `host`-`port`, and for
every suffix the ingress name `alias-<host>-<port>-<user>-<suffix>` with
every dot replaced by a dash — with no stored mapping consulted. -/
theorem C4_stateless_reversibility :
    ∀ (user host ip : String) (port : Int) (suffix : String),
      create_netplan_file ip = delete_netplan_file ip ∧
      create_netplan_file ip = "/etc/netplan/50-" ++ ip ++ ".yaml" ∧
      create_sites_available host port = delete_sites_available host port ∧
      create_sites_enabled host port = delete_sites_enabled host port ∧
      create_ingress_name user host port suffix =
        delete_ingress_name user host port suffix ∧
      create_ingress_name user host port suffix =
        replaceDots ("alias-" ++ host ++ "-" ++ intToString port ++ "-" ++
          (user ++ "-" ++ suffix)) := by
  intro user host ip port suffix
  exact ⟨rfl, rfl, rfl, rfl, rfl, rfl⟩

/-- C7: when the resolved `ip` equals the discovered current IP, the
network-alias step is a no-op — no netplan file is written and no
`netplan apply` is issued. -/
theorem C7_alias_noop_when_ip_current :
    ∀ (w : World) (ip current_interface : String) (current_netmask : Int),
      create_network_alias w ip ip current_interface current_netmask =
        (Res.ok (), []) := by
  intro w ip ci cm
  simp [create_network_alias]

/-- C8: when the resolved `port` is 80, the proxy step is a no-op
regardless of host — no site file, no symlink, no nginx service command. -/
theorem C8_proxy_noop_when_port_80 :
    ∀ (w : World) (host user_apihost : String),
      create_nginx_proxy w host 80 user_apihost = (Res.ok (), []) := by
  intro w host ua
  simp [create_nginx_proxy]

/-! Lemmas about `splitOnce` used to settle the `get_user_apihost` claim. -/

theorem splitOnce_eq_none_of_not_contains (sep l : List Char)
    (h : containsSub sep l = false) : splitOnce sep l = none := by
  induction l with
  | nil => rfl
  | cons c cs ih =>
    simp only [containsSub, Bool.or_eq_false_iff] at h
    simp only [splitOnce, h.1, Bool.false_eq_true, if_false, ih h.2]

theorem splitOnce_decomp (sep l a b : List Char)
    (h : splitOnce sep l = some (a, b)) : l = a ++ sep ++ b := by
  induction l generalizing a b with
  | nil => simp [splitOnce] at h
  | cons c cs ih =>
    by_cases hp : sep.isPrefixOf (c :: cs) = true
    · simp only [splitOnce, hp, if_true, Option.some.injEq, Prod.mk.injEq] at h
      obtain ⟨t, ht⟩ := List.isPrefixOf_iff_prefix.mp hp
      rw [← h.1, ← h.2, List.nil_append, ← ht, List.drop_left]
    · simp only [splitOnce, hp, Bool.false_eq_true, if_false] at h
      cases hs : splitOnce sep cs with
      | none => rw [hs] at h; exact absurd h (by simp)
      | some ab =>
        obtain ⟨a1, b1⟩ := ab
        rw [hs] at h
        simp only [Option.some.injEq, Prod.mk.injEq] at h
        rw [← h.1, ← h.2]
        simpa using ih a1 b1 hs

theorem takeWhile_of_all {α : Type} (p : α → Bool) (l : List α)
    (h : l.all p = true) : l.takeWhile p = l := by
  induction l with
  | nil => rfl
  | cons c cs ih =>
    simp only [List.all_cons, Bool.and_eq_true] at h
    simp [List.takeWhile_cons, h.1, ih h.2]

theorem string_mk_toList (s : String) : String.mk s.toList = s := rfl

/-- C9 counterexample: for a scheme-less base containing a path suffix the
code strips the path, so the result is not the base string unchanged with
`user.` prepended, contradicting the claim's no-scheme clause. -/
theorem C9_counterexample :
    get_user_apihost "example.com/path" "u" = "u.example.com" ∧
    get_user_apihost "example.com/path" "u" ≠ "u." ++ "example.com/path" := by
  constructor
  · decide
  · decide

/-- C9 (amended): if the base contains the scheme separator, it splits at
the first occurrence into scheme and remainder and the result is
`scheme://user.domain` with the path suffix stripped from the domain;
otherwise the part of the base before the first `/` (the whole string when
no `/` occurs) is the domain and the result is `user.domain`. -/
theorem C9_user_apihost :
    ∀ (base user : String),
      (containsSub "://".toList base.toList = false →
        get_user_apihost base user =
          user ++ "." ++ String.mk (base.toList.takeWhile (fun c => !(c == '/'))) ∧
        (base.toList.all (fun c => !(c == '/')) = true →
          get_user_apihost base user = user ++ "." ++ base)) ∧
      (∀ proto rest, splitOnce "://".toList base.toList = some (proto, rest) →
        base.toList = proto ++ "://".toList ++ rest ∧
        get_user_apihost base user =
          String.mk proto ++ "://" ++ user ++ "." ++
            String.mk (rest.takeWhile (fun c => !(c == '/')))) := by
  intro base user
  constructor
  · intro hns
    have hsp := splitOnce_eq_none_of_not_contains _ _ hns
    constructor
    · unfold get_user_apihost
      rw [hsp]
    · intro hall
      unfold get_user_apihost
      rw [hsp, takeWhile_of_all _ _ hall, string_mk_toList]
  · intro proto rest hsp
    refine ⟨splitOnce_decomp _ _ _ _ hsp, ?_⟩
    unfold get_user_apihost
    rw [hsp]

/-- C9 witness: the amended statement applied at concrete inputs, covering
both the no-scheme branch and the scheme branch. -/
theorem C9_user_apihost_witness :
    get_user_apihost "miniops.me" "devel" = "devel." ++ "miniops.me" ∧
    get_user_apihost "http://miniops.me/x/y" "devel" =
      "http" ++ "://" ++ "devel" ++ "." ++ "miniops.me" := by
  constructor
  · exact ((C9_user_apihost "miniops.me" "devel").1 (by decide)).2 (by decide)
  · have h := ((C9_user_apihost "http://miniops.me/x/y" "devel").2
      "http".toList "miniops.me/x/y".toList (by decide)).2
    rw [h]
    decide

/-- C6: `ip` defaults to the discovered current IP when the IP argument is
absent or empty, `host` defaults to the resolved `ip`, `port` defaults to
80, `delete` defaults to false; the concrete input
`("test","","","","")` with discovered current IP `10.0.0.5` resolves to
`host = ip = "10.0.0.5"`, `port = 80`, `delete = false`; and the resolved
`ip`, `host` and `port` do not depend on the DELETE argument, so the same
resolution feeds both the create and the delete path. -/
theorem C6_input_defaulting :
    ∀ (argv : List String) (cip : String),
      ((argv[4]? = none ∨ argv[4]? = some "") → resolved_ip argv cip = cip) ∧
      ((argv[2]? = none ∨ argv[2]? = some "") →
        resolved_host argv cip = resolved_ip argv cip) ∧
      ((argv[3]? = none ∨ argv[3]? = some "") → resolved_port argv = some 80) ∧
      ((argv[5]? = none ∨ argv[5]? = some "") → resolved_delete argv = false) ∧
      resolve_config ["extra-aliases.py", "test", "", "", "", ""] "10.0.0.5" =
        Res.ok ⟨"test", "10.0.0.5", 80, "10.0.0.5", false⟩ ∧
      (∀ (pre : List String) (a5 a5' : String), pre.length = 5 →
        resolved_ip (pre ++ [a5]) cip = resolved_ip (pre ++ [a5']) cip ∧
        resolved_host (pre ++ [a5]) cip = resolved_host (pre ++ [a5']) cip ∧
        resolved_port (pre ++ [a5]) = resolved_port (pre ++ [a5'])) := by
  intro argv cip
  refine ⟨?_, ?_, ?_, ?_, by decide, ?_⟩
  · intro h
    rcases h with h | h <;> simp [resolved_ip, argOr, h]
  · intro h
    rcases h with h | h <;> simp [resolved_host, argOr, h]
  · intro h
    rcases h with h | h <;> simp [resolved_port, h]
  · intro h
    rcases h with h | h <;> simp [resolved_delete, h]
  · intro pre a5 a5' hlen
    have h2 : 2 < pre.length := by omega
    have h3 : 3 < pre.length := by omega
    have h4 : 4 < pre.length := by omega
    refine ⟨?_, ?_, ?_⟩
    · simp [resolved_ip, argOr, List.getElem?_append_left, h4]
    · simp [resolved_host, resolved_ip, argOr, List.getElem?_append_left, h2, h4]
    · simp [resolved_port, List.getElem?_append_left, h3]

/-- C6 witness: the defaulting clauses applied at concrete inputs. -/
theorem C6_input_defaulting_witness :
    resolved_ip ["extra-aliases.py", "test", "", "", "", ""] "10.0.0.5" = "10.0.0.5" ∧
    resolved_port ["extra-aliases.py", "test", "", "", "", ""] = some 80 ∧
    resolved_ip (["x", "u", "h", "3000", "9.9.9.9"] ++ ["true"]) "1.2.3.4" =
      resolved_ip (["x", "u", "h", "3000", "9.9.9.9"] ++ [""]) "1.2.3.4" := by
  refine ⟨(C6_input_defaulting ["extra-aliases.py", "test", "", "", "", ""]
      "10.0.0.5").1 (Or.inr rfl),
    (C6_input_defaulting ["extra-aliases.py", "test", "", "", "", ""]
      "10.0.0.5").2.2.1 (Or.inr rfl),
    ((C6_input_defaulting [] "1.2.3.4").2.2.2.2.2 ["x", "u", "h", "3000", "9.9.9.9"]
      "true" "" rfl).1⟩

/-- Concrete dry-run world in which every preflight condition is violated:
no Debian marker, every executed command fails. -/
def dryWorldAllFail : World :=
  ⟨true, fun _ => ⟨1, "", "fail"⟩, fun _ => false, fun _ => false, "tmpfile",
   fun _ => none, fun _ => YamlVal.obj [], fun _ => ""⟩

/-- C5 counterexample: a create-path (non-delete) invocation in dry-run mode
skips the preflight checks entirely even though every check would fail, so
the checks are not performed on every create-path invocation and skipping is
not confined to deletions. -/
theorem C5_counterexample :
    dryWorldAllFail.dryRun = true ∧
    dryWorldAllFail.pathExists "/etc/debian_version" = false ∧
    (dryWorldAllFail.exec "which netplan").returncode = 1 ∧
    preflight_checks dryWorldAllFail "devel" = (Res.ok (), []) := by
  exact ⟨rfl, rfl, rfl, by simp [preflight_checks, dryWorldAllFail]⟩

/-- C5 (amended): preflight is skipped exactly when the run is a deletion or
dry-run mode is on; outside dry-run the create path runs the OS-marker,
netplan, nginx (with one best-effort install that is fatal if it also
fails) and per-ingress readability checks in order, each fatal on failure,
and a preflight failure aborts the create path before any mutation step. -/
theorem C5_preflight :
    ∀ (w : World) (user : String) (cfg : Config) (ci : String) (cm : Int)
      (cip ua : String),
      (w.dryRun = true → preflight_checks w user = (Res.ok (), [])) ∧
      (w.dryRun = false →
        (w.pathExists "/etc/debian_version" = false →
          preflight_checks w user =
            (Res.raised "This script requires Ubuntu/Debian Linux", [])) ∧
        (w.pathExists "/etc/debian_version" = true →
          (w.exec "which netplan").returncode ≠ 0 →
          preflight_checks w user =
            (Res.raised "netplan is not installed",
             [Effect.exec "which netplan"])) ∧
        (w.pathExists "/etc/debian_version" = true →
          (w.exec "which netplan").returncode = 0 →
          (w.exec "which nginx").returncode ≠ 0 →
          (w.exec "sudo apt-get update && sudo apt-get install -y nginx").returncode ≠ 0 →
          preflight_checks w user =
            (Res.raised "Failed to install nginx",
             [Effect.exec "which netplan", Effect.exec "which nginx",
              Effect.exec "sudo apt-get update && sudo apt-get install -y nginx"])) ∧
        (w.pathExists "/etc/debian_version" = true →
          (w.exec "which netplan").returncode = 0 →
          (w.exec "which nginx").returncode = 0 →
          (w.exec ("kubectl get ingress " ++ (user ++ "-apihost-api-ingress") ++
            " -n nuvolaris")).returncode ≠ 0 →
          preflight_checks w user =
            (Res.raised ("Required ingress " ++ (user ++ "-apihost-api-ingress") ++
              " not found in namespace nuvolaris"),
             [Effect.exec "which netplan", Effect.exec "which nginx",
              Effect.exec ("kubectl get ingress " ++ (user ++ "-apihost-api-ingress") ++
                " -n nuvolaris")])) ∧
        (w.pathExists "/etc/debian_version" = true →
          (w.exec "which netplan").returncode = 0 →
          (w.exec "which nginx").returncode = 0 →
          (∀ n : String,
            (w.exec ("kubectl get ingress " ++ n ++ " -n nuvolaris")).returncode = 0) →
          preflight_checks w user =
            (Res.ok (),
             [Effect.exec "which netplan", Effect.exec "which nginx",
              Effect.exec ("kubectl get ingress " ++ (user ++ "-apihost-api-ingress") ++
                " -n nuvolaris"),
              Effect.exec ("kubectl get ingress " ++ (user ++ "-apihost-my-api-ingress") ++
                " -n nuvolaris"),
              Effect.exec ("kubectl get ingress " ++ (user ++ "-static-ingress") ++
                " -n nuvolaris")]))) ∧
      (cfg.delete = true →
        afterResolve w cfg ci cm cip ua =
          mbind (delete_nginx_proxy w cfg.host cfg.port) (fun _ =>
            mbind (delete_network_alias w cfg.ip) (fun _ =>
              delete_ingresses w cfg.user cfg.host cfg.port))) ∧
      (cfg.delete = false →
        afterResolve w cfg ci cm cip ua =
          mbind (preflight_checks w cfg.user) (fun _ =>
            mbind (create_network_alias w cfg.ip cip ci cm) (fun _ =>
              mbind (create_nginx_proxy w cfg.host cfg.port ua) (fun _ =>
                duplicate_ingresses w cfg.user cfg.host cfg.port)))) ∧
      (∀ m : String, cfg.delete = false →
        (preflight_checks w cfg.user).1 = Res.raised m →
        afterResolve w cfg ci cm cip ua =
          (Res.raised m, (preflight_checks w cfg.user).2)) := by
  intro w user cfg ci cm cip ua
  refine ⟨?_, ?_, ?_, ?_, ?_⟩
  · intro hdry
    simp [preflight_checks, hdry]
  · intro hdry
    have hro : ∀ c, (w.dryRun && isReadOnly c && !((w.exec c).returncode == 0)) = false := by
      intro c
      rw [hdry]
      rfl
    refine ⟨?_, ?_, ?_, ?_, ?_⟩
    · intro hos
      simp [preflight_checks, hdry, check_os, hos, mbind]
    · intro hos hnp
      simp [preflight_checks, hdry, check_os, hos, check_netplan, run_command,
        mbind, hnp]
    · intro hos hnp hng hapt
      simp [preflight_checks, hdry, check_os, hos, check_netplan,
        check_and_install_nginx, run_command, mbind, hnp, hng, hapt]
    · intro hos hnp hng hing
      simp [preflight_checks, hdry, check_os, hos, check_netplan,
        check_and_install_nginx, check_ingresses, check_one_ingress,
        run_command, mbind, hnp, hng, hing]
    · intro hos hnp hng hing
      simp [preflight_checks, hdry, check_os, hos, check_netplan,
        check_and_install_nginx, check_ingresses, check_one_ingress,
        run_command, mbind, hnp, hng, hing]
  · intro hdel
    simp [afterResolve, hdel]
  · intro hdel
    simp [afterResolve, hdel]
  · intro m hdel hpre
    simp only [afterResolve, hdel, Bool.false_eq_true, if_false]
    rcases hp : preflight_checks w cfg.user with ⟨r, es⟩
    rw [hp] at hpre
    simp at hpre
    rw [hpre]
    simp [mbind]

/-- Concrete non-dry-run world in which every preflight probe succeeds. -/
def preflightWorldOk : World :=
  ⟨false, fun _ => ⟨0, "", ""⟩, fun _ => true, fun _ => false, "t",
   fun _ => none, fun _ => YamlVal.obj [], fun _ => ""⟩

/-- C5 witness: outside dry-run all four checks run in order and succeed. -/
theorem C5_preflight_witness :
    preflight_checks preflightWorldOk "devel" =
      (Res.ok (),
       [Effect.exec "which netplan", Effect.exec "which nginx",
        Effect.exec "kubectl get ingress devel-apihost-api-ingress -n nuvolaris",
        Effect.exec "kubectl get ingress devel-apihost-my-api-ingress -n nuvolaris",
        Effect.exec "kubectl get ingress devel-static-ingress -n nuvolaris"]) := by
  have h := ((C5_preflight preflightWorldOk "devel" ⟨"devel", "h", 80, "i", false⟩
      "eth0" 24 "cip" "ua").2.1 rfl).2.2.2.2 rfl rfl rfl (fun n => rfl)
  rw [h]
  decide

/-- Result of the ingress transform applied to the dry-run mock ingress. -/
def mock_transformed (host nn : String) : YamlVal :=
  YamlVal.obj
    [("apiVersion", YamlVal.str "networking.k8s.io/v1"),
     ("kind", YamlVal.str "Ingress"),
     ("metadata", YamlVal.obj
       [("name", YamlVal.str nn),
        ("namespace", YamlVal.str "nuvolaris")]),
     ("spec", YamlVal.obj
       [("ingressClassName", YamlVal.str "nginx"),
        ("rules", YamlVal.arr
          [YamlVal.obj
            [("host", YamlVal.str host),
             ("http", YamlVal.obj
               [("paths", YamlVal.arr
                 [YamlVal.obj
                   [("path", YamlVal.str "/"),
                    ("pathType", YamlVal.str "Prefix"),
                    ("backend", YamlVal.obj
                      [("service", YamlVal.obj
                        [("name", YamlVal.str "example-service"),
                         ("port", YamlVal.obj [("number", YamlVal.num 80)])])])]])])]])])]

theorem transform_mock (host nn n : String) :
    duplicateTransform host nn (mock_ingress n) = some (mock_transformed host nn) :=
  rfl

/-- Prefix fact for the scratch manifest path used by the ingress step. -/
theorem tmp_prefix_yaml (nn : String) :
    "/tmp/".toList.isPrefixOf (("/tmp/" ++ nn) ++ ".yaml").toList = true := by
  rw [String.append_assoc]
  exact string_prefix_append "/tmp/" (nn ++ ".yaml")

/-- Concrete dry-run world in which the ingress fetch command fails. -/
theorem C1_counterexample :
    (dryWorldAllFail.exec
      "kubectl get ingress devel-static-ingress -n nuvolaris -o yaml").returncode ≠ 0 ∧
    duplicate_ingress dryWorldAllFail "devel" "devel.example.com" 8080 "static-ingress" =
      (Res.exited 1,
       [Effect.exec "kubectl get ingress devel-static-ingress -n nuvolaris -o yaml"]) := by
  exact ⟨by decide, by decide⟩

/-- C1 (amended): in dry-run mode the ingress-duplication step substitutes
the structurally valid synthetic ingress and completes the rest of the
pipeline (transform, temp-file write, printed apply) only when the fetch
command succeeds (exit code 0) with blank output; when the fetch command
itself fails, the dry run aborts immediately with exit code 1 inside the
execution shim. -/
theorem C1_dry_run_fetch :
    ∀ (w : World) (user host : String) (port : Int) (suffix : String),
      w.dryRun = true →
      ((w.exec ("kubectl get ingress " ++ (user ++ "-" ++ suffix) ++
          " -n nuvolaris -o yaml")).returncode ≠ 0 →
        (duplicate_ingress w user host port suffix).1 = Res.exited 1) ∧
      ((w.exec ("kubectl get ingress " ++ (user ++ "-" ++ suffix) ++
          " -n nuvolaris -o yaml")).returncode = 0 →
        pyStrip (w.exec ("kubectl get ingress " ++ (user ++ "-" ++ suffix) ++
          " -n nuvolaris -o yaml")).stdout = "" →
        w.permError ("/tmp/" ++ create_ingress_name user host port suffix ++
          ".yaml") = false →
        isReadOnly ("kubectl apply -f " ++ ("/tmp/" ++
          create_ingress_name user host port suffix ++ ".yaml") ++
          " -n nuvolaris") = false →
        duplicate_ingress w user host port suffix =
          (Res.ok (),
           [Effect.exec ("kubectl get ingress " ++ (user ++ "-" ++ suffix) ++
              " -n nuvolaris -o yaml"),
            Effect.fileWrite ("/tmp/" ++ create_ingress_name user host port suffix ++
              ".yaml")
              (w.dumpYaml (mock_transformed host
                (create_ingress_name user host port suffix))),
            Effect.printCmd ("kubectl apply -f " ++ ("/tmp/" ++
              create_ingress_name user host port suffix ++ ".yaml") ++
              " -n nuvolaris")])) := by
  intro w user host port suffix hdry
  have hro : isReadOnly ("kubectl get ingress " ++ (user ++ "-" ++ suffix) ++
      " -n nuvolaris -o yaml") = true :=
    isReadOnly_kubectl_get_ingress (user ++ "-" ++ suffix) " -n nuvolaris -o yaml"
  constructor
  · intro h1
    have hrc : run_command w ("kubectl get ingress " ++ (user ++ "-" ++ suffix) ++
        " -n nuvolaris -o yaml") false =
        (Res.exited 1,
         [Effect.exec ("kubectl get ingress " ++ (user ++ "-" ++ suffix) ++
           " -n nuvolaris -o yaml")]) := by
      unfold run_command
      rw [hdry, hro]
      simp [h1]
    simp only [duplicate_ingress]
    rw [hrc]
    rfl
  · intro h0 hempty hperm hroA
    have hrc : run_command w ("kubectl get ingress " ++ (user ++ "-" ++ suffix) ++
        " -n nuvolaris -o yaml") false =
        (Res.ok (w.exec ("kubectl get ingress " ++ (user ++ "-" ++ suffix) ++
           " -n nuvolaris -o yaml")),
         [Effect.exec ("kubectl get ingress " ++ (user ++ "-" ++ suffix) ++
           " -n nuvolaris -o yaml")]) := by
      unfold run_command
      rw [hdry, hro]
      simp [h0]
    have hwf : write_file w ("/tmp/" ++ create_ingress_name user host port suffix ++
        ".yaml")
        (w.dumpYaml (mock_transformed host (create_ingress_name user host port suffix)))
        false =
        (Res.ok (),
         [Effect.fileWrite ("/tmp/" ++ create_ingress_name user host port suffix ++
            ".yaml")
           (w.dumpYaml (mock_transformed host
             (create_ingress_name user host port suffix)))]) := by
      unfold write_file
      rw [tmp_prefix_yaml, hdry, hperm]
      rfl
    have hra : run_command w ("kubectl apply -f " ++ ("/tmp/" ++
        create_ingress_name user host port suffix ++ ".yaml") ++ " -n nuvolaris")
        true =
        (Res.ok ⟨0, "", ""⟩,
         [Effect.printCmd ("kubectl apply -f " ++ ("/tmp/" ++
           create_ingress_name user host port suffix ++ ".yaml") ++
           " -n nuvolaris")]) := by
      unfold run_command
      rw [hdry, hroA]
      rfl
    simp only [duplicate_ingress]
    rw [hrc]
    simp [mbind, h0, hempty, hdry, transform_mock, hwf, hra]

/-- Concrete dry-run world in which the ingress fetch succeeds with blank
output, triggering the synthetic substitution. -/
def dryWorldEmptyFetch : World :=
  ⟨true, fun _ => ⟨0, "", ""⟩, fun _ => false, fun _ => false, "t",
   fun _ => none, fun _ => YamlVal.obj [], fun _ => "dumped"⟩

/-- C1 witness: the synthetic ingress is substituted and the rest of the
pipeline runs for the suffix. -/
theorem C1_dry_run_fetch_witness :
    duplicate_ingress dryWorldEmptyFetch "devel" "h" 8080 "static-ingress" =
      (Res.ok (),
       [Effect.exec "kubectl get ingress devel-static-ingress -n nuvolaris -o yaml",
        Effect.fileWrite "/tmp/alias-h-8080-devel-static-ingress.yaml" "dumped",
        Effect.printCmd
          "kubectl apply -f /tmp/alias-h-8080-devel-static-ingress.yaml -n nuvolaris"]) := by
  have h := (C1_dry_run_fetch dryWorldEmptyFetch "devel" "h" 8080
    "static-ingress" rfl).2 rfl rfl rfl (by decide)
  rw [h]
  decide

/-- Behaviour of the annotation-stripping step on any mapping whose
`annotations` value (when present) is itself a mapping. -/
theorem stripAnnotations_result (md1 : List (String × YamlVal))
    (hann : ∀ v, lookupKey md1 "annotations" = some v →
      ∃ kvs, v = YamlVal.obj kvs) :
    ∃ md2, stripAnnotations md1 = some md2 ∧
      (∀ k, k ≠ "annotations" → lookupKey md2 k = lookupKey md1 k) ∧
      (∀ ann, lookupKey md2 "annotations" = some (YamlVal.obj ann) →
        lookupKey ann last_applied_key = none) ∧
      (∀ ann0, lookupKey md1 "annotations" = some (YamlVal.obj ann0) →
        popKey ann0 last_applied_key = [] →
        lookupKey md2 "annotations" = none) := by
  cases hA : lookupKey md1 "annotations" with
  | none =>
    refine ⟨md1, by simp [stripAnnotations, hA], fun k _ => rfl, ?_, ?_⟩
    · intro ann h
      rw [hA] at h
      exact absurd h (by simp)
    · intro ann0 h hemp
      exact hA
  | some v =>
    obtain ⟨kvs, hv⟩ := hann v hA
    subst hv
    cases hempty : (popKey kvs last_applied_key).isEmpty with
    | true =>
      refine ⟨popKey md1 "annotations",
        by simp [stripAnnotations, hA, hempty], ?_, ?_, ?_⟩
      · intro k hk
        exact lookup_pop_ne _ _ _ hk
      · intro ann h
        rw [lookup_pop_self] at h
        exact absurd h (by simp)
      · intro ann0 _ _
        exact lookup_pop_self _ _
    | false =>
      refine ⟨setKey md1 "annotations" (YamlVal.obj (popKey kvs last_applied_key)),
        by simp [stripAnnotations, hA, hempty], ?_, ?_, ?_⟩
      · intro k hk
        exact lookup_set_ne _ _ _ _ hk
      · intro ann h
        rw [lookup_set_self] at h
        have hq : popKey kvs last_applied_key = ann := by
          have h2 := Option.some.inj h
          injection h2
        rw [← hq]
        exact lookup_pop_self _ _
      · intro ann0 h0 hemp
        have hk : kvs = ann0 := YamlVal.obj.inj (Option.some.inj h0)
        rw [hk, hemp] at hempty
        simp at hempty

/-- C3: duplicating `devel-static-ingress` with host `devel.example.com`,
port 8080 and user `devel` names the manifest
`alias-devel-example-com-8080-devel-static-ingress`, sets
`spec.rules[0].host` to `devel.example.com`, removes the `status` key and
the `uid`/`resourceVersion`/`generation`/`creationTimestamp` metadata keys,
removes the last-applied-configuration annotation and drops the
`annotations` map entirely when it becomes empty — for every fetched
manifest of the expected mapping shape. -/
theorem C3_ingress_round_trip :
    ∀ (top md sp r0 : List (String × YamlVal)) (rs : List YamlVal),
      lookupKey top "metadata" = some (YamlVal.obj md) →
      lookupKey top "spec" = some (YamlVal.obj sp) →
      lookupKey sp "rules" = some (YamlVal.arr (YamlVal.obj r0 :: rs)) →
      (∀ v, lookupKey md "annotations" = some v → ∃ kvs, v = YamlVal.obj kvs) →
      create_ingress_name "devel" "devel.example.com" 8080 "static-ingress" =
        "alias-devel-example-com-8080-devel-static-ingress" ∧
      ∃ res,
        duplicateTransform "devel.example.com"
            "alias-devel-example-com-8080-devel-static-ingress"
            (YamlVal.obj top) = some (YamlVal.obj res) ∧
        lookupKey res "status" = none ∧
        (∃ md2, lookupKey res "metadata" = some (YamlVal.obj md2) ∧
          lookupKey md2 "name" = some (YamlVal.str
            "alias-devel-example-com-8080-devel-static-ingress") ∧
          lookupKey md2 "uid" = none ∧
          lookupKey md2 "resourceVersion" = none ∧
          lookupKey md2 "generation" = none ∧
          lookupKey md2 "creationTimestamp" = none ∧
          (∀ ann, lookupKey md2 "annotations" = some (YamlVal.obj ann) →
            lookupKey ann last_applied_key = none) ∧
          (∀ ann0, lookupKey md "annotations" = some (YamlVal.obj ann0) →
            popKey ann0 last_applied_key = [] →
            lookupKey md2 "annotations" = none)) ∧
        (∃ sp2 r02, lookupKey res "spec" = some (YamlVal.obj sp2) ∧
          lookupKey sp2 "rules" = some (YamlVal.arr (YamlVal.obj r02 :: rs)) ∧
          lookupKey r02 "host" = some (YamlVal.str "devel.example.com")) := by
  intro top md sp r0 rs hmd hspec hrules hann
  refine ⟨by decide, ?_⟩
  have hma : lookupKey (popKey (popKey (popKey (popKey md "uid")
      "resourceVersion") "generation") "creationTimestamp") "annotations" =
      lookupKey md "annotations" := by
    rw [lookup_pop_ne _ _ _ (by decide), lookup_pop_ne _ _ _ (by decide),
      lookup_pop_ne _ _ _ (by decide), lookup_pop_ne _ _ _ (by decide)]
  obtain ⟨md2, hstrip, hkeep, hclean, hdrop⟩ :=
    stripAnnotations_result
      (popKey (popKey (popKey (popKey md "uid") "resourceVersion")
        "generation") "creationTimestamp")
      (fun v hv => hann v (hma.symm.trans hv))
  have htop1spec : lookupKey (setKey (popKey top "status") "metadata"
      (YamlVal.obj (setKey md2 "name" (YamlVal.str
        "alias-devel-example-com-8080-devel-static-ingress")))) "spec" =
      some (YamlVal.obj sp) := by
    rw [lookup_set_ne _ _ _ _ (by decide), lookup_pop_ne _ _ _ (by decide), hspec]
  have htrans : duplicateTransform "devel.example.com"
      "alias-devel-example-com-8080-devel-static-ingress" (YamlVal.obj top) =
      some (YamlVal.obj (setKey (setKey (popKey top "status") "metadata"
        (YamlVal.obj (setKey md2 "name" (YamlVal.str
          "alias-devel-example-com-8080-devel-static-ingress")))) "spec"
        (YamlVal.obj (setKey sp "rules" (YamlVal.arr (YamlVal.obj
          (setKey r0 "host" (YamlVal.str "devel.example.com")) :: rs)))))) := by
    simp only [duplicateTransform, hmd, hstrip]
    rw [htop1spec]
    simp only [rewriteRules, hrules]
  refine ⟨_, htrans, ?_, ⟨setKey md2 "name" (YamlVal.str
    "alias-devel-example-com-8080-devel-static-ingress"), ?_, ?_, ?_, ?_, ?_,
    ?_, ?_, ?_⟩, ⟨setKey sp "rules" (YamlVal.arr (YamlVal.obj
      (setKey r0 "host" (YamlVal.str "devel.example.com")) :: rs)),
    setKey r0 "host" (YamlVal.str "devel.example.com"), ?_, ?_, ?_⟩⟩
  · rw [lookup_set_ne _ _ _ _ (by decide), lookup_set_ne _ _ _ _ (by decide),
      lookup_pop_self]
  · rw [lookup_set_ne _ _ _ _ (by decide), lookup_set_self]
  · rw [lookup_set_self]
  · rw [lookup_set_ne _ _ _ _ (by decide), hkeep _ (by decide),
      lookup_pop_ne _ _ _ (by decide), lookup_pop_ne _ _ _ (by decide),
      lookup_pop_ne _ _ _ (by decide), lookup_pop_self]
  · rw [lookup_set_ne _ _ _ _ (by decide), hkeep _ (by decide),
      lookup_pop_ne _ _ _ (by decide), lookup_pop_ne _ _ _ (by decide),
      lookup_pop_self]
  · rw [lookup_set_ne _ _ _ _ (by decide), hkeep _ (by decide),
      lookup_pop_ne _ _ _ (by decide), lookup_pop_self]
  · rw [lookup_set_ne _ _ _ _ (by decide), hkeep _ (by decide),
      lookup_pop_self]
  · intro ann h
    rw [lookup_set_ne _ _ _ _ (by decide)] at h
    exact hclean ann h
  · intro ann0 h0 hemp
    rw [lookup_set_ne _ _ _ _ (by decide)]
    exact hdrop ann0 (hma.trans h0) hemp
  · rw [lookup_set_self]
  · rw [lookup_set_self]
  · rw [lookup_set_self]

/-- Concrete fetched ingress manifest used to witness the transform: its
`annotations` map holds only the last-applied-configuration entry. -/
def sample_md : List (String × YamlVal) :=
  [("name", YamlVal.str "devel-static-ingress"),
   ("annotations", YamlVal.obj [(last_applied_key, YamlVal.str "blob")]),
   ("uid", YamlVal.str "u1"),
   ("resourceVersion", YamlVal.str "42"),
   ("generation", YamlVal.num 3),
   ("creationTimestamp", YamlVal.str "2025-01-01T00:00:00Z")]

/-- Rule list of the concrete sample manifest. -/
def sample_sp : List (String × YamlVal) :=
  [("rules", YamlVal.arr [YamlVal.obj [("host", YamlVal.str "old.example.com")]])]

/-- Top-level mapping of the concrete sample manifest. -/
def sample_top : List (String × YamlVal) :=
  [("apiVersion", YamlVal.str "networking.k8s.io/v1"),
   ("kind", YamlVal.str "Ingress"),
   ("metadata", YamlVal.obj sample_md),
   ("spec", YamlVal.obj sample_sp),
   ("status", YamlVal.obj [])]

/-- C3 witness: the round-trip properties hold of the concrete sample
manifest. -/
theorem C3_ingress_round_trip_witness :
    create_ingress_name "devel" "devel.example.com" 8080 "static-ingress" =
      "alias-devel-example-com-8080-devel-static-ingress" ∧
    ∃ res,
      duplicateTransform "devel.example.com"
          "alias-devel-example-com-8080-devel-static-ingress"
          (YamlVal.obj sample_top) = some (YamlVal.obj res) ∧
      lookupKey res "status" = none ∧
      (∃ md2, lookupKey res "metadata" = some (YamlVal.obj md2) ∧
        lookupKey md2 "name" = some (YamlVal.str
          "alias-devel-example-com-8080-devel-static-ingress") ∧
        lookupKey md2 "uid" = none ∧
        lookupKey md2 "resourceVersion" = none ∧
        lookupKey md2 "generation" = none ∧
        lookupKey md2 "creationTimestamp" = none ∧
        (∀ ann, lookupKey md2 "annotations" = some (YamlVal.obj ann) →
          lookupKey ann last_applied_key = none) ∧
        (∀ ann0, lookupKey sample_md "annotations" = some (YamlVal.obj ann0) →
          popKey ann0 last_applied_key = [] →
          lookupKey md2 "annotations" = none)) ∧
      (∃ sp2 r02, lookupKey res "spec" = some (YamlVal.obj sp2) ∧
        lookupKey sp2 "rules" = some (YamlVal.arr [YamlVal.obj r02]) ∧
        lookupKey r02 "host" = some (YamlVal.str "devel.example.com")) := by
  exact C3_ingress_round_trip sample_top sample_md sample_sp
    [("host", YamlVal.str "old.example.com")] [] rfl rfl rfl
    (fun v hv => ⟨[(last_applied_key, YamlVal.str "blob")],
      (Option.some.inj hv).symm⟩)

/-- C10: the declared 1-65535 port range is never enforced — whenever the
PORT argument parses as a decimal integer (0, negative and out-of-range
values included) the run proceeds into reconciliation with exactly that
port; a PORT argument that does not parse raises before the preflight check
or any mutation step, and the run ends with exit code 1 having executed
only the three read-only discovery commands. -/
theorem C10_port_range_not_enforced :
    ∀ (w : World) (prog user host portArg ipArg delArg cip iface : String)
      (mask : Int) (apihost : String) (ifs : List IfaceInfo),
      (w.exec "hostname -I").returncode = 0 →
      pyWords (pyStrip (w.exec "hostname -I").stdout) = [cip] →
      (w.exec "ip -j addr show").returncode = 0 →
      w.parseIpAddr (w.exec "ip -j addr show").stdout = some ifs →
      findIface cip ifs = some (iface, mask) →
      (w.exec apihost_cmd).returncode = 0 →
      pyStrip (w.exec apihost_cmd).stdout = apihost →
      apihost ≠ "" →
      portArg ≠ "" →
      (pyInt portArg = none →
        program w [prog, user, host, portArg, ipArg, delArg] =
          (Res.exited 1,
           [Effect.exec "hostname -I", Effect.exec "ip -j addr show",
            Effect.exec apihost_cmd])) ∧
      (∀ k : Int, pyInt portArg = some k →
        mainRun w [prog, user, host, portArg, ipArg, delArg] =
          ((afterResolve w
              ⟨user, resolved_host [prog, user, host, portArg, ipArg, delArg] cip,
               k, resolved_ip [prog, user, host, portArg, ipArg, delArg] cip,
               resolved_delete [prog, user, host, portArg, ipArg, delArg]⟩
              iface mask cip (get_user_apihost apihost user)).1,
           [Effect.exec "hostname -I", Effect.exec "ip -j addr show",
            Effect.exec apihost_cmd] ++
           (afterResolve w
              ⟨user, resolved_host [prog, user, host, portArg, ipArg, delArg] cip,
               k, resolved_ip [prog, user, host, portArg, ipArg, delArg] cip,
               resolved_delete [prog, user, host, portArg, ipArg, delArg]⟩
              iface mask cip (get_user_apihost apihost user)).2)) := by
  intro w prog user host portArg ipArg delArg cip iface mask apihost ifs
  intro hrc1 hwords hrc2 hparse hfind hrc3 hstrip3 hne hpne
  have hro1 : isReadOnly "hostname -I" = true := by decide
  have hro2 : isReadOnly "ip -j addr show" = true := by decide
  have h1 : get_current_ip w = (Res.ok cip, [Effect.exec "hostname -I"]) := by
    simp [get_current_ip, run_command, mbind, hro1, hrc1, hwords]
  have h2 : get_network_info w cip =
      (Res.ok (iface, mask), [Effect.exec "ip -j addr show"]) := by
    simp [get_network_info, run_command, mbind, hro2, hrc2, hparse, hfind]
  have h3 : get_current_apihost w = (Res.ok apihost, [Effect.exec apihost_cmd]) := by
    simp [get_current_apihost, run_command, mbind, isReadOnly_apihost_cmd,
      hrc3, hstrip3, hne]
  constructor
  · intro hnone
    have hres : resolve_config [prog, user, host, portArg, ipArg, delArg] cip =
        Res.raised "invalid literal for int() with base 10" := by
      simp [resolve_config, resolved_port, hpne, hnone]
    unfold program
    rw [show mainRun w [prog, user, host, portArg, ipArg, delArg] =
        (Res.raised "invalid literal for int() with base 10",
         [Effect.exec "hostname -I", Effect.exec "ip -j addr show",
          Effect.exec apihost_cmd]) from by
      simp [mainRun, mbind, h1, h2, h3, hres]]
  · intro k hk
    have hres : resolve_config [prog, user, host, portArg, ipArg, delArg] cip =
        Res.ok ⟨user,
          resolved_host [prog, user, host, portArg, ipArg, delArg] cip, k,
          resolved_ip [prog, user, host, portArg, ipArg, delArg] cip,
          resolved_delete [prog, user, host, portArg, ipArg, delArg]⟩ := by
      simp [resolve_config, resolved_port, hpne, hk]
    simp [mainRun, mbind, h1, h2, h3, hres]

/-- Concrete world whose discovery commands all succeed. -/
def mainWorldA : World :=
  ⟨false,
   fun c =>
     if c = "hostname -I" then ⟨0, "10.0.0.5\n", ""⟩
     else if c = "ip -j addr show" then ⟨0, "addrs", ""⟩
     else ⟨0, "http://miniops.me", ""⟩,
   fun _ => true, fun _ => false, "t",
   fun _ => some [⟨"eth0", some [⟨some "10.0.0.5", some 24⟩]⟩],
   fun _ => YamlVal.obj [], fun _ => ""⟩

/-- C10 witness: an unparseable PORT ends the run with exit code 1 after
only the discovery reads, while the out-of-range PORT 99999 flows into
reconciliation unchanged. -/
theorem C10_port_range_not_enforced_witness :
    pyInt "abc" = none ∧
    program mainWorldA ["extra-aliases.py", "devel", "", "abc", "", ""] =
      (Res.exited 1,
       [Effect.exec "hostname -I", Effect.exec "ip -j addr show",
        Effect.exec apihost_cmd]) ∧
    pyInt "99999" = some 99999 ∧
    mainRun mainWorldA ["extra-aliases.py", "devel", "", "99999", "", ""] =
      ((afterResolve mainWorldA
          ⟨"devel",
           resolved_host ["extra-aliases.py", "devel", "", "99999", "", ""] "10.0.0.5",
           99999,
           resolved_ip ["extra-aliases.py", "devel", "", "99999", "", ""] "10.0.0.5",
           resolved_delete ["extra-aliases.py", "devel", "", "99999", "", ""]⟩
          "eth0" 24 "10.0.0.5"
          (get_user_apihost "http://miniops.me" "devel")).1,
       [Effect.exec "hostname -I", Effect.exec "ip -j addr show",
        Effect.exec apihost_cmd] ++
       (afterResolve mainWorldA
          ⟨"devel",
           resolved_host ["extra-aliases.py", "devel", "", "99999", "", ""] "10.0.0.5",
           99999,
           resolved_ip ["extra-aliases.py", "devel", "", "99999", "", ""] "10.0.0.5",
           resolved_delete ["extra-aliases.py", "devel", "", "99999", "", ""]⟩
          "eth0" 24 "10.0.0.5"
          (get_user_apihost "http://miniops.me" "devel")).2) := by
  refine ⟨by decide, ?_, by decide, ?_⟩
  · exact (C10_port_range_not_enforced mainWorldA "extra-aliases.py" "devel" ""
      "abc" "" "" "10.0.0.5" "eth0" 24 "http://miniops.me"
      [⟨"eth0", some [⟨some "10.0.0.5", some 24⟩]⟩]
      (by decide) (by decide) (by decide) rfl (by decide) (by decide)
      (by decide) (by decide) (by decide)).1 (by decide)
  · exact (C10_port_range_not_enforced mainWorldA "extra-aliases.py" "devel" ""
      "99999" "" "" "10.0.0.5" "eth0" 24 "http://miniops.me"
      [⟨"eth0", some [⟨some "10.0.0.5", some 24⟩]⟩]
      (by decide) (by decide) (by decide) rfl (by decide) (by decide)
      (by decide) (by decide) (by decide)).2 99999 (by decide)
